import Mathlib

/-!
Verification of the MCP proxy subsystem of higress-group/wasm-go.

The Go code stores JSON data as `map[string]interface{}` /
`[]interface{}` trees produced by `encoding/json`.  We embed Go
dynamic (`interface{}`) values as the inductive type `GoVal`.
`encoding/json.Unmarshal` into `interface{}` yields `float64` for every
JSON number; Go integer literals placed into `interface{}` have dynamic
type `int`.  Go's `==` on `interface{}` first compares dynamic types,
so a `float64` never equals an `int` even at the same numeric value.
We keep the two number kinds as separate constructors (`fnum` for
`float64`, `inum` for `int`); all numeric values arising in this
development are integral, so an `Int` payload is exact for both.

Go maps (`map[string]interface{}`) are embedded as association lists
with the usual first-match lookup; the embedded code never depends on
map iteration order except where noted.
-/

namespace McpProxy

/-- A Go `interface{}` value as used for JSON data in the proxy code. -/
inductive GoVal where
  | null
  | bool (b : Bool)
  /-- a `float64` with integral value (what `encoding/json` produces for JSON numbers) -/
  | fnum (n : Int)
  /-- a Go `int` (integer literals boxed into `interface{}`) -/
  | inum (n : Int)
  | str (s : String)
  | arr (xs : List GoVal)
  | obj (fields : List (String × GoVal))

/-- Go `==` on two `interface{}` values: equal dynamic types and equal
values.  The embedded code compares interfaces only against scalar
constants (`code == -32602`, `isError == true`), where this is total. -/
def goEq : GoVal → GoVal → Bool
  | .null, .null => true
  | .bool a, .bool b => a == b
  | .fnum a, .fnum b => a == b
  | .inum a, .inum b => a == b
  | .str a, .str b => a == b
  | _, _ => false

/-- Go map lookup `m[k]` (first binding wins, as the lists we build have
distinct keys). -/
def lookupField (fields : List (String × GoVal)) (k : String) : Option GoVal :=
  (fields.find? (fun kv => kv.1 == k)).map (fun kv => kv.2)

/-- Go map assignment `m[k] = v` on the association-list model:
replace the binding if the key is present, append otherwise. -/
def setField (fields : List (String × GoVal)) (k : String) (v : GoVal) :
    List (String × GoVal) :=
  if fields.any (fun kv => kv.1 == k) then
    fields.map (fun kv => if kv.1 == k then (k, v) else kv)
  else
    fields ++ [(k, v)]

/-! ## Allow-tools filter (`applyAllowToolsFilter`, mcp proxy server)

Embeds `McpProtocolHandler.applyAllowToolsFilter`: the static config
allow-set (`map[string]struct{}`, embedded as a list of names), the
`x-envoy-allow-mcp-tools` header string parsed by splitting on `","`,
trimming space and dropping empty entries, and the filtering of the
`tools` array of a `tools/list` result. -/

/-- Go `unicode.IsSpace` (the code points trimmed by `strings.TrimSpace`). -/
def goIsSpace (c : Char) : Bool :=
  c.toNat ∈ [0x9, 0xA, 0xB, 0xC, 0xD, 0x20, 0x85, 0xA0, 0x1680,
    0x2000, 0x2001, 0x2002, 0x2003, 0x2004, 0x2005, 0x2006, 0x2007,
    0x2008, 0x2009, 0x200A, 0x2028, 0x2029, 0x202F, 0x205F, 0x3000]

/-- Go `strings.SplitSeq(s, ",")` on the character list: split on each
comma; the empty input yields one empty piece, like Go. -/
def splitComma : List Char → List (List Char)
  | [] => [[]]
  | c :: rest =>
    if c = ',' then [] :: splitComma rest
    else
      match splitComma rest with
      | [] => [[c]]
      | p :: ps => (c :: p) :: ps

/-- Go `strings.TrimSpace`: drop leading and trailing white space. -/
def trimSpaceChars (l : List Char) : List Char :=
  ((l.dropWhile goIsSpace).reverse.dropWhile goIsSpace).reverse

/-- The per-request header allow-set: `strings.SplitSeq(headerStr, ",")`,
each piece trimmed, empty pieces dropped (set membership is embedded as
list membership). -/
def parseAllowToolsHeader (headerStr : String) : List String :=
  ((splitComma headerStr.toList).map (fun p => String.mk (trimSpaceChars p))).filter
    (fun t => t ≠ "")

/-- The per-tool test of the filter loop body: the element is kept iff
it is an object carrying a string `name` that is found in the config
allow-set (when non-empty) and in the header allow-set (when non-empty).
Elements failing any of the shape checks are dropped. -/
def keepTool (allowTools allowToolsFromHeader : List String) (tool : GoVal) : Bool :=
  match tool with
  | .obj toolMap =>
    match lookupField toolMap "name" with
    | some (.str toolName) =>
      (allowTools.isEmpty || allowTools.contains toolName) &&
      (allowToolsFromHeader.isEmpty || allowToolsFromHeader.contains toolName)
    | _ => false
  | _ => false

/-- `McpProtocolHandler.applyAllowToolsFilter`.  The Go function reads
the config allow-set and the raw header string from the request
context; both are parameters here.  The result map has distinct keys
(it is a Go map), so rebuilding the map with `tools` replaced is
embedded as a pointwise update of the association list. -/
def applyAllowToolsFilter (allowTools : List String) (allowToolsHeaderStr : String)
    (resultMap : List (String × GoVal)) : List (String × GoVal) :=
  let allowToolsFromHeader := parseAllowToolsHeader allowToolsHeaderStr
  if allowTools.isEmpty && allowToolsFromHeader.isEmpty then
    resultMap
  else
    match lookupField resultMap "tools" with
    | some (.arr toolsArray) =>
      resultMap.map (fun kv =>
        if kv.1 == "tools" then
          (kv.1, GoVal.arr (toolsArray.filter (keepTool allowTools allowToolsFromHeader)))
        else kv)
    | _ => resultMap

/-! ## JSON-RPC error codes

The numeric codes of `utils.ErrInternalError` / `utils.ErrInvalidParams`
as fixed by the JSON-RPC 2.0 standard and by the spec's error table. -/

def errInternalError : Int := -32603

def errInvalidParams : Int := -32602

/-- The outcome a backend-response callback delivers to the client-facing
JSON-RPC layer: `utils.OnMCPResponseSuccess(result, tag)` or
`utils.OnMCPResponseError(err, code, tag)` (the error message is the
`error` argument's text). -/
inductive McpOutcome where
  | success (result : List (String × GoVal)) (tag : String)
  | rpcError (code : Int) (msg : String) (tag : String)

/-- `fmt.Sprintf("%v", x)` for a Go `interface{}` value.  The embedded
code formats only the scalar `text` field of a content entry; composite
values are rendered schematically in Go's `[..]` / `map[..]` style
(Go additionally sorts map keys, which no claim exercises). -/
def goFormatV : GoVal → String
  | .null => "<nil>"
  | .bool b => if b then "true" else "false"
  | .fnum n => toString n
  | .inum n => toString n
  | .str s => s
  | .arr xs => "[" ++ String.intercalate " " (xs.attach.map (fun x => goFormatV x.1)) ++ "]"
  | .obj fs => "map[" ++
      String.intercalate " " (fs.attach.map (fun kv => kv.1.1 ++ ":" ++ goFormatV kv.1.2)) ++ "]"
decreasing_by
  · have := List.sizeOf_lt_of_mem x.2
    simp only [GoVal.arr.sizeOf_spec]
    omega
  · have := List.sizeOf_lt_of_mem kv.2
    have h2 : sizeOf kv.1.2 < sizeOf kv.1 := by
      cases kv.1 with
      | mk a b => simp
    simp only [GoVal.obj.sizeOf_spec]
    omega

/-! ## tools/call response handling

Embeds the response callback of `McpProtocolHandler.executeToolsCall`
and `McpProtocolHandler.wrapBackendError`.  The callbacks receive the
backend body already run through `json.Unmarshal` into
`map[string]interface{}`: `none` stands for an unmarshal error, and a
parsed body contains `fnum` numbers only.  `wrapBackendError`
re-unmarshals the same bytes, which deterministically yields the same
value; its internal marshal-then-unmarshal round trip is the identity
on this value domain. -/

/-- `McpProtocolHandler.wrapBackendError`. -/
def wrapBackendError (parsed : Option (List (String × GoVal))) : McpOutcome :=
  match parsed with
  | none => .rpcError errInternalError "unmarshal error" "mcp-proxy:error:parse_failure"
  | some response =>
    -- add source attribution to the first text entry, when the shape allows
    let response' :=
      match lookupField response "result" with
      | some (.obj resultMap) =>
        match lookupField resultMap "content" with
        | some (.arr (c0 :: rest)) =>
          match c0 with
          | .obj textContent =>
            match lookupField textContent "text" with
            | some text =>
              let wrapped := GoVal.str ("Backend error: " ++ goFormatV text)
              setField response "result" (.obj (setField resultMap "content"
                (.arr (.obj (setField textContent "text" wrapped) :: rest))))
            | none => response
          | _ => response
        | _ => response
      | _ => response
    -- marshal + unmarshal of response', then forward its result map
    match lookupField response' "result" with
    | some (.obj resultMap) => .success resultMap "mcp-proxy:error:backend_wrapped"
    | some _ => .rpcError errInternalError "invalid wrapped result type" "mcp-proxy:error:wrap_failure"
    | none => .rpcError errInternalError "wrapped response parse error" "mcp-proxy:error:wrap_failure"

/-- The response callback of `McpProtocolHandler.executeToolsCall`
(the `ctx.RouteCall` continuation).  Note the Go code treats only
status 200 as success, and that `isError == true` is a Go interface
comparison. -/
def toolsCallCallback (statusCode : Int) (parsed : Option (List (String × GoVal))) :
    McpOutcome :=
  if statusCode ≠ 200 then
    .rpcError errInternalError "backend tools/call failed" "mcp-proxy:tools/call:backend_error"
  else
    match parsed with
    | some callResponse =>
      let backendReportedError :=
        match lookupField callResponse "result" with
        | some (.obj resultMap) =>
          match lookupField resultMap "isError" with
          | some isError => goEq isError (.bool true)
          | none => false
        | _ => false
      if backendReportedError then
        wrapBackendError (some callResponse)
      else
        match lookupField callResponse "result" with
        | some (.obj resultMap) => .success resultMap "mcp-proxy:tools/call:success"
        | some _ => .rpcError errInternalError "invalid tools/call result type"
            "mcp-proxy:tools/call:invalid_type"
        | none => .rpcError errInternalError "invalid tools/call response"
            "mcp-proxy:tools/call:invalid_response"
    | none => .rpcError errInternalError "unmarshal error" "mcp-proxy:tools/call:parse_error"

/-! ## initialize response handling

Embeds the response callback of `McpProtocolHandler.Initialize`
(the `sendMcpRequest` continuation).  In the Go source the check for a
protocol-version error is `code == -32602`, comparing the unmarshalled
`interface{}` (dynamic type `float64`) against the untyped constant
`-32602` (dynamic type `int`). -/

/-- Outcome of the initialize callback: either an error frame for the
client or the continuation into `sendInitializedNotification`, with the
`Mcp-Session-Id` response header value when present. -/
inductive InitOutcome where
  | proceed (sessionId : Option String)
  | rpcError (code : Int) (msg : String) (tag : String)

/-- The response callback of `McpProtocolHandler.Initialize`. -/
def initializeCallback (statusCode : Int) (respHeaders : List (String × String))
    (parsed : Option (List (String × GoVal))) : InitOutcome :=
  if statusCode ≠ 200 then
    .rpcError errInternalError "backend initialization failed" "mcp-proxy:initialize:backend_error"
  else
    match parsed with
    | none => .rpcError errInternalError "unmarshal error" "mcp-proxy:initialize:parse_error"
    | some response =>
      match lookupField response "error" with
      | some errorObj =>
        let versionIncompatible :=
          match errorObj with
          | .obj errorMap =>
            match lookupField errorMap "code" with
            | some code => goEq code (.inum (-32602))
            | none => false
          | _ => false
        if versionIncompatible then
          .rpcError errInvalidParams "protocol version not supported by backend"
            "mcp-proxy:initialize:version_incompatible"
        else
          .rpcError errInternalError "backend initialization failed"
            "mcp-proxy:initialize:backend_error"
      | none =>
        .proceed (((respHeaders.find? (fun h => h.1 == "Mcp-Session-Id")).map (fun h => h.2)))

/-! ## notifications/initialized response handling

Embeds the response callback of
`McpProtocolHandler.sendInitializedNotification`: whatever the status,
the callback marks initialization complete on the context and then runs
the pending operation stored under `CtxMcpProxyOperation` (a string
of the `McpProxyOperation` type). -/

/-- The follow-up action the notification callback takes after (always)
setting `CtxMcpProxyInitialized`. -/
inductive NotifyFollowUp where
  | execToolsList
  | execToolsCall
  | errorUnknownOperation
  | completeOnly

/-- Result of the notification callback: the value stored under
`CtxMcpProxyInitialized` and the follow-up taken. -/
structure NotifyStep where
  initializedSet : Bool
  followUp : NotifyFollowUp

/-- The response callback of
`McpProtocolHandler.sendInitializedNotification`.  A non-200 status only
changes the log line; the flow is identical. -/
def notificationCallback (statusCode : Int) (operation : Option String) : NotifyStep :=
  { initializedSet := true
    followUp :=
      match operation with
      | some op =>
        if op = "tools/list" then .execToolsList
        else if op = "tools/call" then .execToolsCall
        else .errorUnknownOperation
      | none => .completeOnly }

/-! ## Backend request builders

`createInitializeRequest`, the `notifications/initialized` body,
`createToolsListRequest` and `createToolsCallRequest`.  The `id` fields
are Go `int` literals. -/

/-- `McpProtocolHandler.createInitializeRequest`. -/
def createInitializeRequest : List (String × GoVal) :=
  [("jsonrpc", .str "2.0"),
   ("id", .inum 1),
   ("method", .str "initialize"),
   ("params", .obj
     [("protocolVersion", .str "2025-03-26"),
      ("capabilities", .obj []),
      ("clientInfo", .obj
        [("name", .str "Higress-mcp-proxy"),
         ("version", .str "1.0.0")])])]

/-- The notification body built by
`McpProtocolHandler.sendInitializedNotification` (no `id` field). -/
def initializedNotification : List (String × GoVal) :=
  [("jsonrpc", .str "2.0"),
   ("method", .str "notifications/initialized")]

/-- `McpProtocolHandler.createToolsListRequest`. -/
def createToolsListRequest (cursor : Option String) : List (String × GoVal) :=
  let params : List (String × GoVal) :=
    match cursor with
    | some c => if c ≠ "" then [("cursor", .str c)] else []
    | none => []
  [("jsonrpc", .str "2.0"),
   ("id", .inum 2),
   ("method", .str "tools/list"),
   ("params", .obj params)]

/-- `McpProtocolHandler.createToolsCallRequest`. -/
def createToolsCallRequest (toolName : String) (arguments : List (String × GoVal)) :
    List (String × GoVal) :=
  [("jsonrpc", .str "2.0"),
   ("id", .inum 3),
   ("method", .str "tools/call"),
   ("params", .obj
     [("name", .str toolName),
      ("arguments", .obj arguments)])]

/-! ## JSON-RPC codec (client-facing frames)

Modelled from the spec: the `pkg/mcp/utils` JSON-RPC codec
(`JsonRpcID`, `OnMCPResponseSuccess`, `OnMCPResponseError`) is not under
src/ — only its callers and tests are.  Per the spec, `id` is captured
as an opaque JSON value (string, number, or absent), re-emitted in the
response with the same JSON type, and a request without `id` (a
notification) produces no response frame at all. -/

/-- Modelled from the spec: the opaque JSON-RPC id — a JSON string or a
JSON number (which `encoding/json` carries as an integral `float64`).
An absent id is `Option.none` at the use sites. -/
inductive JsonRpcID where
  | str (s : String)
  | num (n : Int)

/-- Modelled from the spec: capture the client id from the parsed
request frame without normalizing it. -/
def parseJsonRpcID (request : List (String × GoVal)) : Option JsonRpcID :=
  match lookupField request "id" with
  | some (.str s) => some (.str s)
  | some (.fnum n) => some (.num n)
  | _ => none

/-- Re-emission of the opaque id with its original JSON type. -/
def encodeJsonRpcID : JsonRpcID → GoVal
  | .str s => .str s
  | .num n => .fnum n

/-- Modelled from the spec: the success frame
`{"jsonrpc":"2.0","id":<opaque>,"result":<value>}`. -/
def buildRpcSuccessFrame (rpcId : JsonRpcID) (result : GoVal) : List (String × GoVal) :=
  [("jsonrpc", .str "2.0"),
   ("id", encodeJsonRpcID rpcId),
   ("result", result)]

/-- Modelled from the spec: the error frame
`{"jsonrpc":"2.0","id":<opaque>,"error":{"code":..,"message":..}}`. -/
def buildRpcErrorFrame (rpcId : JsonRpcID) (code : Int) (msg : String) :
    List (String × GoVal) :=
  [("jsonrpc", .str "2.0"),
   ("id", encodeJsonRpcID rpcId),
   ("error", .obj [("code", .inum code), ("message", .str msg)])]

/-- Modelled from the spec: assembly of the final client-visible frame
from the client request and the proxy outcome.  A notification (absent
id) is answered with a 202 ACK without a body: no frame. -/
def finalClientFrame (request : List (String × GoVal)) (outcome : McpOutcome) :
    Option (List (String × GoVal)) :=
  match parseJsonRpcID request with
  | none => none
  | some rpcId =>
    match outcome with
    | .success r _ => some (buildRpcSuccessFrame rpcId (.obj r))
    | .rpcError c m _ => some (buildRpcErrorFrame rpcId c m)

/-! ## Authentication

`SecurityScheme`, `ProxyAuthContext` and
`McpProxyServer.ApplyAuthentication` from proxy_server.go, the shared
`ApplySecurity` (modelled from the spec: the shared security utilities
are not under src/), `applyProxyAuthentication` and the
authentication step of `executeToolsCall`. -/

/-- The security scheme descriptor.  The struct definition is not under
src/; its fields are fixed by every use site (`ID`, `Type`, `In`,
`Name`, `Scheme`, `DefaultCredential`).  `Type` is spelled
`SchemeType` because Lean reserves the name. -/
structure SecurityScheme where
  ID : String
  SchemeType : String
  In : String
  Name : String
  Scheme : String
  DefaultCredential : String

/-- `ProxyAuthContext` (proxy_server.go).  `ParsedURL` is carried as the
URL text: `ApplyAuthentication` never reads or writes it. -/
structure ProxyAuthContext where
  Headers : List (String × String)
  ParsedURL : String
  PassthroughCredential : String

/-- The add-or-update loop used for headers: replace the first pair with
the given name, append when absent. -/
def setOrAppendHeader (headers : List (String × String)) (name value : String) :
    List (String × String) :=
  match headers with
  | [] => [(name, value)]
  | h :: t =>
    if h.1 == name then (name, value) :: t
    else h :: setOrAppendHeader t name value

/-- `McpProxyServer.ApplyAuthentication` (proxy_server.go).  The server's
scheme map (keyed by `ID` via `AddSecurityScheme`) is embedded as a
list searched by `ID`.  The `apiKey`-in-`query` branch of the source is
empty (`// For now, implement basic functionality`), so it returns the
context unchanged, exactly like an unrecognized `In` or `Type`. -/
def ApplyAuthentication (schemes : List SecurityScheme) (authCtx : ProxyAuthContext)
    (schemeID : String) : Except String ProxyAuthContext :=
  match schemes.find? (fun s => s.ID == schemeID) with
  | none => .error ("security scheme not found: " ++ schemeID)
  | some scheme =>
    let credential :=
      if authCtx.PassthroughCredential = "" && scheme.DefaultCredential ≠ "" then
        scheme.DefaultCredential
      else authCtx.PassthroughCredential
    if credential = "" then .error ("no credential available for scheme " ++ schemeID)
    else if scheme.SchemeType = "apiKey" then
      if scheme.In = "header" then
        .ok { authCtx with Headers := setOrAppendHeader authCtx.Headers scheme.Name credential }
      else
        .ok authCtx
    else if scheme.SchemeType = "http" then
      .ok { authCtx with Headers := setOrAppendHeader authCtx.Headers "Authorization" credential }
    else
      .ok authCtx

/-- A parsed `*url.URL` as used by the proxy: scheme, host, path and the
decoded query parameters (percent-encoding is not exercised by the
embedded code paths). -/
structure GoURL where
  Scheme : String
  Host : String
  Path : String
  Query : List (String × String)

/-- Set/override a query parameter (`url.Values.Set`): replace the
first binding or append. -/
def setQueryParam (query : List (String × String)) (name value : String) :
    List (String × String) :=
  match query with
  | [] => [(name, value)]
  | h :: t =>
    if h.1 == name then (name, value) :: t
    else h :: setQueryParam t name value

/-- Query encoding for URL reconstruction. -/
def encodeQuery (query : List (String × String)) : String :=
  String.intercalate "&" (query.map (fun kv => kv.1 ++ "=" ++ kv.2))

/-- The URL reconstruction at the end of `applyProxyAuthentication`
(scheme://host/path, root-relative otherwise, query appended when
non-empty; no fragment arises here). -/
def urlString (u : GoURL) : String :=
  let base :=
    if u.Scheme ≠ "" && u.Host ≠ "" then u.Scheme ++ "://" ++ u.Host ++ u.Path
    else "/" ++ (if u.Path.startsWith "/" then u.Path.drop 1 else u.Path)
  let q := encodeQuery u.Query
  if q ≠ "" then base ++ "?" ++ q else base

/-- `AuthRequestContext` as constructed by `applyProxyAuthentication`. -/
structure AuthRequestContext where
  Method : String
  Headers : List (String × String)
  ParsedURL : GoURL
  PassthroughCredential : String

/-- `SecurityRequirement` as constructed by `applyProxyAuthentication`. -/
structure SecurityRequirement where
  ID : String
  Credential : String
  Passthrough : Bool

/-- Modelled from the spec: the shared `ApplySecurity` utility is not
under src/ (only its caller `applyProxyAuthentication` is).  Per the
spec's credential policy: an explicitly supplied credential wins; else
the passthrough credential when the requirement is passthrough and the
credential is present; else the scheme's `defaultCredential`; when none
exists, fail (AUTH_MISSING).  Application: `apiKey`-in-`header`
replaces-or-appends the named header; `apiKey`-in-`query` sets/overrides
the named query parameter on the URL; `http` sets `Authorization`. -/
def ApplySecurity (requirement : SecurityRequirement) (schemes : List SecurityScheme)
    (authCtx : AuthRequestContext) : Except String AuthRequestContext :=
  match schemes.find? (fun s => s.ID == requirement.ID) with
  | none => .error ("security scheme not found: " ++ requirement.ID)
  | some scheme =>
    let credential :=
      if requirement.Credential ≠ "" then requirement.Credential
      else if requirement.Passthrough && authCtx.PassthroughCredential ≠ "" then
        authCtx.PassthroughCredential
      else scheme.DefaultCredential
    if credential = "" then
      .error ("no credential available for scheme " ++ requirement.ID)
    else if scheme.SchemeType = "apiKey" then
      if scheme.In = "header" then
        .ok { authCtx with Headers := setOrAppendHeader authCtx.Headers scheme.Name credential }
      else if scheme.In = "query" then
        .ok { authCtx with ParsedURL :=
          { authCtx.ParsedURL with
            Query := setQueryParam authCtx.ParsedURL.Query scheme.Name credential } }
      else .ok authCtx
    else if scheme.SchemeType = "http" then
      .ok { authCtx with Headers := setOrAppendHeader authCtx.Headers "Authorization" credential }
    else .ok authCtx

/-- `McpProtocolHandler.applyProxyAuthentication` (mcp proxy server):
builds the `AuthRequestContext` and a `SecurityRequirement` with an
always-empty explicit credential and `Passthrough` set iff a passthrough
credential is present, runs `ApplySecurity`, and reconstructs the URL.
The parse of `h.backendURL` is represented by taking the parsed URL as
input. -/
def applyProxyAuthentication (schemes : List SecurityScheme)
    (schemeID passthroughCredential : String) (headers : List (String × String))
    (backendURL : GoURL) : Except String (String × List (String × String)) :=
  let authCtx : AuthRequestContext :=
    { Method := "POST"
      Headers := headers
      ParsedURL := backendURL
      PassthroughCredential := passthroughCredential }
  let securityConfig : SecurityRequirement :=
    { ID := schemeID
      Credential := ""
      Passthrough := passthroughCredential ≠ "" }
  match ApplySecurity securityConfig schemes authCtx with
  | .error e => .error e
  | .ok ctxOk => .ok (urlString ctxOk.ParsedURL, ctxOk.Headers)

/-- `ProxyAuthInfo` (mcp proxy server); the `Server` back-pointer is
represented by passing the scheme list alongside. -/
structure ProxyAuthInfo where
  SecuritySchemeID : String
  PassthroughCredential : String

/-- What `executeToolsCall` has decided just before `ctx.RouteCall`:
the outbound headers and URL, the JSON-RPC error frames emitted during
the step, and whether the backend call is issued. -/
structure ToolsCallDispatch where
  headers : List (String × String)
  finalURL : String
  emittedErrorFrames : List McpOutcome
  callIssued : Bool

/-- The pre-call section of `McpProtocolHandler.executeToolsCall`:
builds the headers (with `Mcp-Session-Id` when a session exists), then
applies authentication; a failure of `applyProxyAuthentication` is only
logged (`log.Errorf`) — the request still proceeds with the original
backend URL and headers, and no error frame is produced.  The raw
`h.backendURL` string is `urlString backendURL`. -/
def executeToolsCallAuthStep (schemes : List SecurityScheme)
    (authInfo : Option ProxyAuthInfo) (sessionID : String) (backendURL : GoURL) :
    ToolsCallDispatch :=
  let headers := [("Content-Type", "application/json")] ++
    (if sessionID ≠ "" then [("Mcp-Session-Id", sessionID)] else [])
  match authInfo with
  | some ai =>
    if ai.SecuritySchemeID ≠ "" then
      match applyProxyAuthentication schemes ai.SecuritySchemeID
          ai.PassthroughCredential headers backendURL with
      | .ok (finalURL, headersOk) =>
        { headers := headersOk, finalURL := finalURL, emittedErrorFrames := [], callIssued := true }
      | .error _ =>
        { headers := headers, finalURL := urlString backendURL,
          emittedErrorFrames := [], callIssued := true }
    else
      { headers := headers, finalURL := urlString backendURL,
        emittedErrorFrames := [], callIssued := true }
  | none =>
    { headers := headers, finalURL := urlString backendURL,
      emittedErrorFrames := [], callIssued := true }

/-! ## SSE buffer management

Modelled from the spec: the SSE proxy (`sse_proxy.go`,
`handleSSEStreamingResponse`) is not under src/ — only its design
documents are.  Per the spec (§4.5, §4.6, §7): each invocation appends
the arrived bytes to `sseBuffer` (line endings `\r\n` and `\r` unified
to `\n`), drains the event parser (events are terminated by a blank
line), and accumulating more than 100 MiB without a dispatchable event
emits exactly one BUFFER_OVERFLOW JSON-RPC error frame (code -32603),
transitions the request to the terminal FAILED state and stops all
further injections. -/

/-- Line-ending unification: `\r\n` and `\r` both become `\n`. -/
def normalizeNl : List Char → List Char
  | [] => []
  | '\r' :: '\n' :: rest => '\n' :: normalizeNl rest
  | '\r' :: rest => '\n' :: normalizeNl rest
  | c :: rest => c :: normalizeNl rest

/-- Whether the (normalized) buffer contains a blank line, i.e. two
consecutive `\n` — the SSE event terminator. -/
def hasBlank : List Char → Bool
  | [] => false
  | [_] => false
  | a :: b :: rest => (a == '\n' && b == '\n') || hasBlank (b :: rest)

/-- Split the buffer into complete event blocks (terminated by a blank
line) and the trailing partial event. -/
def drainAux (cur : List Char) : List Char → List (List Char) × List Char
  | [] => ([], cur.reverse)
  | [c] => ([], (c :: cur).reverse)
  | a :: b :: rest =>
    if a == '\n' && b == '\n' then
      let (es, r) := drainAux [] rest
      (cur.reverse :: es, r)
    else
      drainAux (a :: cur) (b :: rest)
termination_by l => l.length

/-- The 100 MiB cap on accumulated un-dispatched bytes. -/
def sseBufferCap : Nat := 100 * 1024 * 1024

/-- The SSE buffer-management state: the accumulator of streamed bytes
not yet consumed by the event parser, and the terminal FAILED flag. -/
structure SseBufState where
  buffer : List Char
  failed : Bool

/-- Fresh per-request state. -/
def initialSseBufState : SseBufState := { buffer := [], failed := false }

/-- Modelled from the spec: one streaming-response-body invocation.
Returns the new state, the dispatchable events drained from the buffer,
and the JSON-RPC frames injected by this invocation. -/
def sseFeed (s : SseBufState) (chunk : List Char) :
    SseBufState × List (List Char) × List McpOutcome :=
  if s.failed then (s, [], [])
  else
    let buf := s.buffer ++ normalizeNl chunk
    if hasBlank buf then
      let (events, rest) := drainAux [] buf
      ({ buffer := rest, failed := false }, events, [])
    else if buf.length > sseBufferCap then
      ({ buffer := [], failed := true }, [],
        [.rpcError errInternalError "SSE buffer overflow" "mcp-proxy:sse:buffer_overflow"])
    else
      ({ buffer := buf, failed := false }, [], [])

/-- Feeding a sequence of chunks, collecting events and injected frames. -/
def sseFeedAll (s : SseBufState) : List (List Char) →
    SseBufState × List (List Char) × List McpOutcome
  | [] => (s, [], [])
  | c :: cs =>
    let r1 := sseFeed s c
    let r2 := sseFeedAll r1.1 cs
    (r2.1, r1.2.1 ++ r2.2.1, r1.2.2 ++ r2.2.2)

/-! ## Helper lemmas -/

theorem lookupField_mapReplace_self (t : List (String × GoVal)) (k : String) (v : GoVal)
    (h : (t.any fun kv => kv.1 == k) = true) :
    lookupField (t.map (fun kv => if kv.1 == k then (k, v) else kv)) k = some v := by
  induction t with
  | nil => simp at h
  | cons kv t ih =>
    by_cases hk : kv.1 == k
    · have hrepl : (if kv.1 == k then (k, v) else kv) = (k, v) := by simp [hk]
      simp only [List.map_cons, hrepl, lookupField]
      rw [List.find?_cons_of_pos _ (by simp)]
      rfl
    · simp only [List.any_cons, hk, Bool.false_or] at h
      simp only [List.map_cons, hk, if_neg, Bool.false_eq_true, not_false_iff]
      simp only [lookupField, List.find?, hk]
      exact ih h

theorem lookupField_mapReplace_ne (t : List (String × GoVal)) (k k' : String) (v : GoVal)
    (hne : k' ≠ k) :
    lookupField (t.map (fun kv => if kv.1 == k then (k, v) else kv)) k' = lookupField t k' := by
  induction t with
  | nil => rfl
  | cons kv t ih =>
    have hkk' : ¬(k == k') = true := by simpa using fun h => hne h.symm
    by_cases hk : kv.1 == k
    · have hv : ¬(kv.1 == k') = true := by
        have : kv.1 = k := by simpa using hk
        simpa [this] using fun h => hne h.symm
      simp [lookupField, List.find?, hk, hkk', hv] at ih ⊢
      exact ih
    · by_cases hk' : kv.1 == k'
      · simp [lookupField, List.find?, hk, hk']
      · simp [lookupField, List.find?, hk, hk'] at ih ⊢
        exact ih

theorem lookupField_appendOne_self (t : List (String × GoVal)) (k : String) (v : GoVal)
    (h : (t.any fun kv => kv.1 == k) = false) :
    lookupField (t ++ [(k, v)]) k = some v := by
  induction t with
  | nil => simp [lookupField, List.find?]
  | cons kv t ih =>
    simp only [List.any_cons, Bool.or_eq_false_iff] at h
    simp only [List.cons_append, lookupField, List.find?, h.1]
    exact ih h.2

theorem lookupField_appendOne_ne (t : List (String × GoVal)) (k k' : String) (v : GoVal)
    (hne : k' ≠ k) :
    lookupField (t ++ [(k, v)]) k' = lookupField t k' := by
  induction t with
  | nil =>
    have : ¬(k == k') = true := by simpa using fun h => hne h.symm
    simp [lookupField, List.find?, this]
  | cons kv t ih =>
    by_cases hk' : kv.1 == k'
    · simp [lookupField, List.find?, hk']
    · simp [lookupField, List.find?, hk'] at ih ⊢
      exact ih

theorem lookupField_setField_self (fields : List (String × GoVal)) (k : String) (v : GoVal) :
    lookupField (setField fields k v) k = some v := by
  unfold setField
  split
  case isTrue h => exact lookupField_mapReplace_self fields k v h
  case isFalse h =>
    exact lookupField_appendOne_self fields k v (Bool.eq_false_iff.mpr h)

theorem lookupField_setField_ne (fields : List (String × GoVal)) (k k' : String) (v : GoVal)
    (hne : k' ≠ k) : lookupField (setField fields k v) k' = lookupField fields k' := by
  unfold setField
  split
  · exact lookupField_mapReplace_ne fields k k' v hne
  · exact lookupField_appendOne_ne fields k k' v hne

theorem hasBlank_append_left (a b : List Char) (h : hasBlank a = true) :
    hasBlank (a ++ b) = true := by
  induction a with
  | nil => simp [hasBlank] at h
  | cons x t ih =>
    cases t with
    | nil => simp [hasBlank] at h
    | cons y t2 =>
      simp only [hasBlank, Bool.or_eq_true] at h
      simp only [List.cons_append, hasBlank, Bool.or_eq_true]
      rcases h with h | h
      · exact Or.inl h
      · exact Or.inr (by simpa using ih h)

theorem sseFeedAll_failed (cs : List (List Char)) (s : SseBufState) (h : s.failed = true) :
    sseFeedAll s cs = (s, [], []) := by
  induction cs with
  | nil => rfl
  | cons c cs ih =>
    simp only [sseFeedAll, sseFeed, h, if_pos]
    simp [ih]

/-- The single frame injected on buffer overflow. -/
def overflowFrame : McpOutcome :=
  .rpcError errInternalError "SSE buffer overflow" "mcp-proxy:sse:buffer_overflow"

theorem sseFeed_clean (b c : List Char)
    (hbc : hasBlank (b ++ normalizeNl c) = false) :
    sseFeed { buffer := b, failed := false } c =
      if sseBufferCap < (b ++ normalizeNl c).length then
        ({ buffer := [], failed := true }, [], [overflowFrame])
      else ({ buffer := b ++ normalizeNl c, failed := false }, [], []) := by
  simp only [sseFeed, hbc, Bool.false_eq_true, if_false, gt_iff_lt, overflowFrame]

theorem sseFeedAll_clean (cs : List (List Char)) (b : List Char)
    (hb : hasBlank (b ++ (cs.map normalizeNl).flatten) = false)
    (hlen : b.length ≤ sseBufferCap) :
    sseFeedAll { buffer := b, failed := false } cs =
      if sseBufferCap < (b ++ (cs.map normalizeNl).flatten).length then
        ({ buffer := [], failed := true }, [], [overflowFrame])
      else
        ({ buffer := b ++ (cs.map normalizeNl).flatten, failed := false }, [], []) := by
  induction cs generalizing b with
  | nil =>
    simp only [List.map_nil, List.flatten_nil, List.append_nil] at hb ⊢
    rw [if_neg (by omega)]
    rfl
  | cons c cs ih =>
    have hb' : hasBlank ((b ++ normalizeNl c) ++ (cs.map normalizeNl).flatten) = false := by
      rw [List.append_assoc]
      simpa using hb
    have hbc : hasBlank (b ++ normalizeNl c) = false := by
      by_contra hcontra
      have htrue : hasBlank (b ++ normalizeNl c) = true := by
        cases h2 : hasBlank (b ++ normalizeNl c) with
        | true => rfl
        | false => exact absurd h2 hcontra
      have := hasBlank_append_left _ ((cs.map normalizeNl).flatten) htrue
      rw [this] at hb'
      exact Bool.true_eq_false.mp hb'
    have hstep := sseFeed_clean b c hbc
    by_cases hcap : sseBufferCap < (b ++ normalizeNl c).length
    · rw [if_pos hcap] at hstep
      have hrest := sseFeedAll_failed cs { buffer := [], failed := true } rfl
      have hcond : sseBufferCap < (b ++ ((c :: cs).map normalizeNl).flatten).length := by
        simp only [List.map_cons, List.flatten_cons]
        rw [← List.append_assoc]
        have := List.length_append (b ++ normalizeNl c) ((cs.map normalizeNl).flatten)
        omega
      simp only [sseFeedAll, hstep, hrest, if_pos hcond]
      rfl
    · rw [if_neg hcap] at hstep
      have hlen' : (b ++ normalizeNl c).length ≤ sseBufferCap := by omega
      have hrest := ih (b ++ normalizeNl c) hb' hlen'
      simp only [sseFeedAll, hstep, hrest]
      simp only [List.map_cons, List.flatten_cons, ← List.append_assoc]
      split
      · rfl
      · rfl

theorem normalizeNl_cons_ne (c : Char) (l : List Char) (h : c ≠ '\r') :
    normalizeNl (c :: l) = c :: normalizeNl l := by
  cases l with
  | nil => simp [normalizeNl, h]
  | cons d t => simp [normalizeNl, h]

theorem normalizeNl_replicate_a (n : Nat) :
    normalizeNl (List.replicate n 'a') = List.replicate n 'a' := by
  induction n with
  | zero => rfl
  | succ n ih =>
    rw [List.replicate_succ, normalizeNl_cons_ne _ _ (by decide), ih]

theorem hasBlank_replicate_a (n : Nat) :
    hasBlank (List.replicate n 'a') = false := by
  induction n with
  | zero => rfl
  | succ n ih =>
    cases n with
    | zero => rfl
    | succ m =>
      rw [List.replicate_succ, List.replicate_succ]
      simp only [hasBlank]
      rw [← List.replicate_succ, ih]
      simp

/-! ## Concrete sample data -/

/-- A minimal tool object of a `tools/list` result. -/
def toolNamed (n : String) : GoVal := .obj [("name", .str n)]

/-- A sample backend `tools/list` result map. -/
def sampleToolsResult : List (String × GoVal) :=
  [("tools", .arr [toolNamed "A", toolNamed "B", toolNamed "C"]),
   ("nextCursor", .str "cur1")]

/-! ## Claims -/

/-- C2: given a backend `tools/list` result carrying a `tools` array and
the two allow-sets — the static config set and the header set parsed
from `x-envoy-allow-mcp-tools` by splitting on commas, trimming white
space and dropping empty entries — the filter returns the input
unchanged when both sets are empty, and otherwise retains exactly the
tools whose name is in every non-empty allow-set (an element without a
string `name` has its name in no set and is dropped), preserving the
original order of the `tools` array and every other result key
verbatim. -/
theorem allowToolsFilter_spec (allowTools : List String) (hdr : String)
    (m : List (String × GoVal)) (ts : List GoVal)
    (hm : lookupField m "tools" = some (.arr ts)) :
    (allowTools = [] ∧ parseAllowToolsHeader hdr = [] →
      applyAllowToolsFilter allowTools hdr m = m) ∧
    (¬(allowTools = [] ∧ parseAllowToolsHeader hdr = []) →
      applyAllowToolsFilter allowTools hdr m =
        m.map (fun kv =>
          if kv.1 == "tools" then
            (kv.1, GoVal.arr (ts.filter (keepTool allowTools (parseAllowToolsHeader hdr))))
          else kv)) := by
  constructor
  · rintro ⟨h1, h2⟩
    simp only [applyAllowToolsFilter, h1, h2, List.isEmpty_nil, Bool.and_self, if_pos]
  · intro h
    have hcond : ¬(allowTools.isEmpty && (parseAllowToolsHeader hdr).isEmpty) = true := by
      simp only [Bool.and_eq_true, List.isEmpty_iff]
      exact h
    simp only [applyAllowToolsFilter, if_neg hcond, hm]

/-- Witness for C2 at the spec's test data: backend tools `{A,B,C}`,
config `{A,B}`, header `" A ,C,,"` (parsed to `{A,C}`): exactly `A`
survives; `nextCursor` is untouched. -/
theorem allowToolsFilter_spec_witness :
    applyAllowToolsFilter ["A", "B"] " A ,C,," sampleToolsResult =
      [("tools", GoVal.arr [toolNamed "A"]), ("nextCursor", GoVal.str "cur1")] := by
  have h := (allowToolsFilter_spec ["A", "B"] " A ,C,," sampleToolsResult
    [toolNamed "A", toolNamed "B", toolNamed "C"] rfl).2 (by simp)
  rw [h]
  rfl

/-- C10: when the result map has no `tools` key, or its `tools` value is
not a JSON array, the allow-tools filter returns the input map
unchanged, also when an allow-set is non-empty. -/
theorem allowToolsFilter_passthrough (allowTools : List String) (hdr : String)
    (m : List (String × GoVal))
    (hm : ∀ ts, lookupField m "tools" ≠ some (.arr ts)) :
    applyAllowToolsFilter allowTools hdr m = m := by
  by_cases hc : (allowTools.isEmpty && (parseAllowToolsHeader hdr).isEmpty) = true
  · simp [applyAllowToolsFilter, hc]
  · cases hl : lookupField m "tools" with
    | none => simp [applyAllowToolsFilter, hc, hl]
    | some v =>
      cases v with
      | arr ts => exact absurd hl (hm ts)
      | null => simp [applyAllowToolsFilter, hc, hl]
      | bool b => simp [applyAllowToolsFilter, hc, hl]
      | fnum n => simp [applyAllowToolsFilter, hc, hl]
      | inum n => simp [applyAllowToolsFilter, hc, hl]
      | str s => simp [applyAllowToolsFilter, hc, hl]
      | obj fs => simp [applyAllowToolsFilter, hc, hl]

/-- Witness for C10: a result without a `tools` key, and one whose
`tools` is a string, both pass through a non-empty config allow-set. -/
theorem allowToolsFilter_passthrough_witness :
    applyAllowToolsFilter ["A"] "" [("nextCursor", GoVal.str "x")] =
      [("nextCursor", GoVal.str "x")] ∧
    applyAllowToolsFilter ["A"] "B" [("tools", GoVal.str "oops")] =
      [("tools", GoVal.str "oops")] :=
  ⟨allowToolsFilter_passthrough ["A"] "" [("nextCursor", GoVal.str "x")]
      (fun _ h => Option.noConfusion h),
   allowToolsFilter_passthrough ["A"] "B" [("tools", GoVal.str "oops")]
      (fun _ h => GoVal.noConfusion (Option.some.inj h))⟩

/-- C4 counterexample: the claim says the tool request carries id 2,
but `createToolsCallRequest` puts id 3 on the `tools/call` frame. -/
theorem toolsCallRequestId_not2 :
    lookupField (createToolsCallRequest "get_product" [("product_id", GoVal.str "12345")]) "id"
      = some (GoVal.inum 3) ∧
    some (GoVal.inum 3) ≠ some (GoVal.inum 2) :=
  ⟨rfl, by simp⟩

/-- C4 amended: the core chooses fixed JSON-RPC ids for its own backend
frames — initialize carries id 1, the initialized notification carries
no id, `tools/list` carries id 2 and `tools/call` carries id 3 — and
the frames built for the client always carry the outer client id. -/
theorem backendRequestIds (cursor : Option String) (toolName : String)
    (arguments : List (String × GoVal)) (rpcId : JsonRpcID) (result : GoVal) :
    lookupField createInitializeRequest "id" = some (.inum 1) ∧
    lookupField initializedNotification "id" = none ∧
    lookupField (createToolsListRequest cursor) "id" = some (.inum 2) ∧
    lookupField (createToolsCallRequest toolName arguments) "id" = some (.inum 3) ∧
    lookupField (buildRpcSuccessFrame rpcId result) "id" = some (encodeJsonRpcID rpcId) ∧
    (∀ code msg, lookupField (buildRpcErrorFrame rpcId code msg) "id"
      = some (encodeJsonRpcID rpcId)) :=
  ⟨rfl, rfl, rfl, rfl, rfl, fun _ _ => rfl⟩

/-- C8: a failing `notifications/initialized` round trip (status ≠ 200)
does not abort the flow: the callback still marks initialization
complete and still dispatches the pending `tools/list` / `tools/call`
operation, exactly as on success. -/
theorem notifyFailure_flowContinues (statusCode : Int) (operation : Option String)
    (hfail : statusCode ≠ 200) :
    (notificationCallback statusCode operation).initializedSet = true ∧
    notificationCallback statusCode operation = notificationCallback 200 operation ∧
    (operation = some "tools/list" →
      (notificationCallback statusCode operation).followUp = .execToolsList) ∧
    (operation = some "tools/call" →
      (notificationCallback statusCode operation).followUp = .execToolsCall) := by
  refine ⟨rfl, rfl, ?_, ?_⟩ <;> rintro rfl <;> rfl

/-- Witness for C8 at status 500 with a pending `tools/list`. -/
theorem notifyFailure_flowContinues_witness :
    (notificationCallback 500 (some "tools/list")).initializedSet = true ∧
    notificationCallback 500 (some "tools/list") = notificationCallback 200 (some "tools/list") ∧
    (some "tools/list" = some "tools/list" →
      (notificationCallback 500 (some "tools/list")).followUp = .execToolsList) ∧
    (some "tools/list" = some "tools/call" →
      (notificationCallback 500 (some "tools/list")).followUp = .execToolsCall) :=
  notifyFailure_flowContinues 500 (some "tools/list") (by decide)

/-- A concrete apiKey-in-query scheme with a default credential. -/
def queryScheme : SecurityScheme :=
  { ID := "QueryAuth", SchemeType := "apiKey", In := "query", Name := "api_key",
    Scheme := "", DefaultCredential := "backend-key" }

/-- A concrete authentication context with no query parameters set. -/
def queryAuthContext : ProxyAuthContext :=
  { Headers := [("Content-Type", "application/json")],
    ParsedURL := "http://backend.example.com/mcp",
    PassthroughCredential := "" }

/-- C9 (code bug): for an `apiKey`-in-`query` scheme,
`McpProxyServer.ApplyAuthentication` resolves the credential
(`backend-key` here) and then does nothing with it — the branch is an
empty stub — so the context comes back entirely unchanged: no query
parameter is set or overridden on the URL, contrary to the claim. -/
theorem applyAuthentication_queryIsNoop :
    ApplyAuthentication [queryScheme] queryAuthContext "QueryAuth" = .ok queryAuthContext :=
  rfl

/-- A backend `tools/call` body with `result.isError == true`, as
unmarshalled from
`{"jsonrpc":"2.0","id":2,"result":{"content":[{"type":"text","text":"x"}],"isError":true}}`. -/
def isErrorBody : List (String × GoVal) :=
  [("jsonrpc", .str "2.0"), ("id", .fnum 2),
   ("result", .obj
     [("content", .arr [.obj [("type", .str "text"), ("text", .str "x")]]),
      ("isError", .bool true)])]

/-- C3 counterexample: at backend status 202 — a 2xx status — with
`result.isError == true` the client receives a JSON-RPC **error** frame
(the generic INTERNAL_ERROR for `backend_error`), not a success frame:
the code accepts only status 200 before looking at `isError`. -/
theorem toolsCall_202_isErrorFrame :
    toolsCallCallback 202 (some isErrorBody) =
      .rpcError errInternalError "backend tools/call failed"
        "mcp-proxy:tools/call:backend_error" :=
  rfl

/-- C3 amended (status exactly 200, which is what the code accepts,
instead of any 2xx): when the backend `tools/call` response has status
200 and its result object carries `isError == true`, the callback
forwards a **success** outcome whose first content entry's text is
prefixed with `"Backend error: "` and whose `isError` is still
`true`. -/
theorem toolsCall_isError_wrappedSuccess (body resultMap textContent : List (String × GoVal))
    (contentRest : List GoVal) (s : String)
    (hres : lookupField body "result" = some (.obj resultMap))
    (hisErr : lookupField resultMap "isError" = some (.bool true))
    (hcontent : lookupField resultMap "content" = some (.arr (.obj textContent :: contentRest)))
    (htext : lookupField textContent "text" = some (.str s)) :
    toolsCallCallback 200 (some body) =
      .success
        (setField resultMap "content"
          (.arr (.obj (setField textContent "text"
            (.str ("Backend error: " ++ s))) :: contentRest)))
        "mcp-proxy:error:backend_wrapped" ∧
    lookupField
        (setField resultMap "content"
          (.arr (.obj (setField textContent "text"
            (.str ("Backend error: " ++ s))) :: contentRest)))
        "isError" = some (.bool true) ∧
    lookupField (setField textContent "text" (.str ("Backend error: " ++ s))) "text"
      = some (.str ("Backend error: " ++ s)) := by
  refine ⟨?_, ?_, ?_⟩
  · simp only [toolsCallCallback, wrapBackendError, hres, hisErr, hcontent, htext, goEq,
      goFormatV, ne_eq, not_true_eq_false, if_false, reduceIte, lookupField_setField_self]
    rfl
  · rw [lookupField_setField_ne _ _ _ _ (by decide)]
    exact hisErr
  · exact lookupField_setField_self _ _ _

/-- Witness for C3 at the spec's concrete backend body (text `"x"`). -/
theorem toolsCall_isError_wrappedSuccess_witness :
    toolsCallCallback 200 (some isErrorBody) =
      .success
        (setField
          [("content", GoVal.arr [.obj [("type", .str "text"), ("text", .str "x")]]),
           ("isError", GoVal.bool true)] "content"
          (.arr [.obj (setField [("type", GoVal.str "text"), ("text", GoVal.str "x")] "text"
            (.str ("Backend error: " ++ "x")))]))
        "mcp-proxy:error:backend_wrapped" ∧
    lookupField
        (setField
          [("content", GoVal.arr [.obj [("type", .str "text"), ("text", .str "x")]]),
           ("isError", GoVal.bool true)] "content"
          (.arr [.obj (setField [("type", GoVal.str "text"), ("text", GoVal.str "x")] "text"
            (.str ("Backend error: " ++ "x")))]))
        "isError" = some (.bool true) ∧
    lookupField (setField [("type", GoVal.str "text"), ("text", GoVal.str "x")] "text"
        (.str ("Backend error: " ++ "x"))) "text"
      = some (.str ("Backend error: " ++ "x")) :=
  toolsCall_isError_wrappedSuccess isErrorBody
    [("content", GoVal.arr [.obj [("type", .str "text"), ("text", .str "x")]]),
     ("isError", GoVal.bool true)]
    [("type", GoVal.str "text"), ("text", GoVal.str "x")] [] "x" rfl rfl rfl rfl

/-- C5 (code bug): when the backend initialize response carries an
`error` object whose `code` is the unmarshalled JSON number -32602, the
client receives the generic INTERNAL_ERROR `backend_error` frame, not
INVALID_PARAMS: the Go comparison `code == -32602` compares an
`interface{}` holding a `float64` against an `int` constant and is
false for every JSON-parsed body (`encoding/json` produces `float64`
for all numbers, so `code` is never a Go `int`). -/
theorem initializeVersionError_notSurfaced (respHeaders : List (String × String))
    (response errorMap : List (String × GoVal)) (code : GoVal)
    (herr : lookupField response "error" = some (.obj errorMap))
    (hcode : lookupField errorMap "code" = some code)
    (hjson : ∀ n : Int, code ≠ .inum n) :
    initializeCallback 200 respHeaders (some response) =
      .rpcError errInternalError "backend initialization failed"
        "mcp-proxy:initialize:backend_error" := by
  have hgo : goEq code (.inum (-32602)) = false := by
    cases code with
    | inum n => exact absurd rfl (hjson n)
    | null => rfl
    | bool b => rfl
    | fnum n => rfl
    | str t => rfl
    | arr xs => rfl
    | obj fs => rfl
  simp only [initializeCallback, herr, hcode, hgo, ne_eq, not_true_eq_false, if_false,
    Bool.false_eq_true, reduceIte]

/-- Witness for C5 at the failing input: status 200 with body
`{"jsonrpc":"2.0","id":1,"error":{"code":-32602,"message":"Unsupported protocol version"}}`
(as unmarshalled, the code is `float64 -32602`). -/
theorem initializeVersionError_notSurfaced_witness :
    initializeCallback 200 []
        (some [("jsonrpc", .str "2.0"), ("id", .fnum 1),
               ("error", .obj [("code", .fnum (-32602)),
                               ("message", .str "Unsupported protocol version")])]) =
      .rpcError errInternalError "backend initialization failed"
        "mcp-proxy:initialize:backend_error" :=
  initializeVersionError_notSurfaced []
    [("jsonrpc", .str "2.0"), ("id", .fnum 1),
     ("error", .obj [("code", .fnum (-32602)),
                     ("message", .str "Unsupported protocol version")])]
    [("code", .fnum (-32602)), ("message", .str "Unsupported protocol version")]
    (.fnum (-32602)) rfl rfl (fun _ h => GoVal.noConfusion h)

/-- An apiKey-in-header scheme with no default credential. -/
def noCredScheme : SecurityScheme :=
  { ID := "NoCredAuth", SchemeType := "apiKey", In := "header", Name := "X-API-Key",
    Scheme := "", DefaultCredential := "" }

/-- The parsed backend URL of the samples. -/
def sampleBackendURL : GoURL :=
  { Scheme := "http", Host := "backend.example.com", Path := "/mcp", Query := [] }

/-- C6 counterexample: with no explicit, passthrough or default
credential the authentication application fails with the
"no credential available" error — but `executeToolsCall` merely logs
it: the backend call is still issued with the original URL and headers,
and no JSON-RPC error frame (code -32603) is surfaced to the client. -/
theorem authMissing_notSurfaced :
    applyProxyAuthentication [noCredScheme] "NoCredAuth" ""
        [("Content-Type", "application/json")] sampleBackendURL =
      .error "no credential available for scheme NoCredAuth" ∧
    executeToolsCallAuthStep [noCredScheme]
        (some { SecuritySchemeID := "NoCredAuth", PassthroughCredential := "" }) ""
        sampleBackendURL =
      { headers := [("Content-Type", "application/json")],
        finalURL := urlString sampleBackendURL,
        emittedErrorFrames := [], callIssued := true } :=
  ⟨rfl, rfl⟩

/-- C6 amended: credential selection follows explicit over passthrough
over `defaultCredential` (the proxy request path always passes an empty
explicit credential); when no credential exists the authentication
application fails with an error that the `tools/call` executor merely
logs — the backend call still proceeds with the original URL and
headers and no JSON-RPC error frame is emitted to the client. -/
theorem authCredentialPolicy (scheme : SecurityScheme) (req : SecurityRequirement)
    (actx : AuthRequestContext) (sessionID : String) (backendURL : GoURL)
    (hid : scheme.ID = req.ID) (hne : scheme.ID ≠ "")
    (htype : scheme.SchemeType = "apiKey") (hin : scheme.In = "header") :
    (req.Credential ≠ "" →
      ApplySecurity req [scheme] actx =
        .ok { actx with
          Headers := setOrAppendHeader actx.Headers scheme.Name req.Credential }) ∧
    (req.Credential = "" → req.Passthrough = true → actx.PassthroughCredential ≠ "" →
      ApplySecurity req [scheme] actx =
        .ok { actx with
          Headers := setOrAppendHeader actx.Headers scheme.Name actx.PassthroughCredential }) ∧
    (req.Credential = "" → (req.Passthrough = false ∨ actx.PassthroughCredential = "") →
      scheme.DefaultCredential ≠ "" →
      ApplySecurity req [scheme] actx =
        .ok { actx with
          Headers := setOrAppendHeader actx.Headers scheme.Name scheme.DefaultCredential }) ∧
    (req.Credential = "" → (req.Passthrough = false ∨ actx.PassthroughCredential = "") →
      scheme.DefaultCredential = "" →
      ApplySecurity req [scheme] actx =
        .error ("no credential available for scheme " ++ req.ID)) ∧
    (scheme.DefaultCredential = "" →
      executeToolsCallAuthStep [scheme]
          (some { SecuritySchemeID := scheme.ID, PassthroughCredential := "" })
          sessionID backendURL =
        { headers := [("Content-Type", "application/json")] ++
            (if sessionID ≠ "" then [("Mcp-Session-Id", sessionID)] else []),
          finalURL := urlString backendURL,
          emittedErrorFrames := [], callIssued := true }) := by
  have hfind : ([scheme].find? (fun sch => sch.ID == req.ID)) = some scheme := by
    simp [List.find?, hid]
  refine ⟨?_, ?_, ?_, ?_, ?_⟩
  · intro h1
    simp only [ApplySecurity, hfind, h1, htype, hin]
    simp [h1, fun h => h1 h]
  · intro h1 h2 h3
    simp only [ApplySecurity, hfind, h1, h2, h3, htype, hin]
    simp [h3]
  · intro h1 h2 h3
    simp only [ApplySecurity, hfind, h1, htype, hin]
    have hpt : (req.Passthrough && !(actx.PassthroughCredential = "" : Bool) : Bool)
        = false ∨ True := Or.inr trivial
    rcases h2 with h2 | h2
    · simp [h2, h3]
    · simp [h2, h3]
  · intro h1 h2 h3
    simp only [ApplySecurity, hfind, h1, htype, hin]
    rcases h2 with h2 | h2
    · simp [h2, h3]
    · simp [h2, h3]
  · intro hdef
    have hfind2 : ([scheme].find? (fun sch => sch.ID == scheme.ID)) = some scheme := by
      simp [List.find?]
    simp only [executeToolsCallAuthStep, applyProxyAuthentication, ApplySecurity, hfind2,
      hdef, htype, hin, hne, ne_eq, not_false_iff, if_true]
    simp [hne, hdef]

/-- A passthrough-enabled apiKey-in-header scheme without default. -/
def ptScheme : SecurityScheme :=
  { ID := "Auth1", SchemeType := "apiKey", In := "header", Name := "X-K",
    Scheme := "", DefaultCredential := "" }

/-- A requirement with empty explicit credential, passthrough on. -/
def ptRequirement : SecurityRequirement :=
  { ID := "Auth1", Credential := "", Passthrough := true }

/-- An authentication context carrying a client passthrough credential. -/
def ptAuthCtx : AuthRequestContext :=
  { Method := "POST", Headers := [("Content-Type", "application/json")],
    ParsedURL := sampleBackendURL, PassthroughCredential := "client-key" }

/-- Witness for C6 at a passthrough scheme without default credential. -/
theorem authCredentialPolicy_witness :
    (ptRequirement.Credential ≠ "" →
      ApplySecurity ptRequirement [ptScheme] ptAuthCtx =
        .ok { ptAuthCtx with
          Headers := setOrAppendHeader ptAuthCtx.Headers ptScheme.Name ptRequirement.Credential }) ∧
    (ptRequirement.Credential = "" → ptRequirement.Passthrough = true →
      ptAuthCtx.PassthroughCredential ≠ "" →
      ApplySecurity ptRequirement [ptScheme] ptAuthCtx =
        .ok { ptAuthCtx with
          Headers := setOrAppendHeader ptAuthCtx.Headers ptScheme.Name
            ptAuthCtx.PassthroughCredential }) ∧
    (ptRequirement.Credential = "" →
      (ptRequirement.Passthrough = false ∨ ptAuthCtx.PassthroughCredential = "") →
      ptScheme.DefaultCredential ≠ "" →
      ApplySecurity ptRequirement [ptScheme] ptAuthCtx =
        .ok { ptAuthCtx with
          Headers := setOrAppendHeader ptAuthCtx.Headers ptScheme.Name
            ptScheme.DefaultCredential }) ∧
    (ptRequirement.Credential = "" →
      (ptRequirement.Passthrough = false ∨ ptAuthCtx.PassthroughCredential = "") →
      ptScheme.DefaultCredential = "" →
      ApplySecurity ptRequirement [ptScheme] ptAuthCtx =
        .error ("no credential available for scheme " ++ ptRequirement.ID)) ∧
    (ptScheme.DefaultCredential = "" →
      executeToolsCallAuthStep [ptScheme]
          (some { SecuritySchemeID := ptScheme.ID, PassthroughCredential := "" })
          "" sampleBackendURL =
        { headers := [("Content-Type", "application/json")] ++
            (if ("" : String) ≠ "" then [("Mcp-Session-Id", "")] else []),
          finalURL := urlString sampleBackendURL,
          emittedErrorFrames := [], callIssued := true }) :=
  authCredentialPolicy ptScheme ptRequirement ptAuthCtx "" sampleBackendURL rfl
    (by decide) rfl rfl

/-- C1: the final client frame carries an id of the same JSON type and
value as the client request's id — string stays string, number stays
number — and a request without id (a notification) produces no frame
at all. -/
theorem idPreservation (request : List (String × GoVal)) (outcome : McpOutcome) :
    (∀ s, lookupField request "id" = some (.str s) →
      ∃ frame, finalClientFrame request outcome = some frame ∧
        lookupField frame "id" = some (.str s)) ∧
    (∀ n : Int, lookupField request "id" = some (.fnum n) →
      ∃ frame, finalClientFrame request outcome = some frame ∧
        lookupField frame "id" = some (.fnum n)) ∧
    (lookupField request "id" = none → finalClientFrame request outcome = none) := by
  refine ⟨?_, ?_, ?_⟩
  · intro s h
    cases outcome with
    | success r tag =>
      exact ⟨buildRpcSuccessFrame (.str s) (.obj r),
        by simp [finalClientFrame, parseJsonRpcID, h], rfl⟩
    | rpcError c msg tag =>
      exact ⟨buildRpcErrorFrame (.str s) c msg,
        by simp [finalClientFrame, parseJsonRpcID, h], rfl⟩
  · intro n h
    cases outcome with
    | success r tag =>
      exact ⟨buildRpcSuccessFrame (.num n) (.obj r),
        by simp [finalClientFrame, parseJsonRpcID, h], rfl⟩
    | rpcError c msg tag =>
      exact ⟨buildRpcErrorFrame (.num n) c msg,
        by simp [finalClientFrame, parseJsonRpcID, h], rfl⟩
  · intro h
    simp [finalClientFrame, parseJsonRpcID, h]

/-- Witness for C1 at the spec's id set: `7`, `"abc"`, `0` and absent
(notification). -/
theorem idPreservation_witness :
    (∃ frame, finalClientFrame
        [("jsonrpc", GoVal.str "2.0"), ("id", GoVal.fnum 7), ("method", GoVal.str "tools/list")]
        (.success [] "t") = some frame ∧ lookupField frame "id" = some (.fnum 7)) ∧
    (∃ frame, finalClientFrame
        [("jsonrpc", GoVal.str "2.0"), ("id", GoVal.str "abc"), ("method", GoVal.str "tools/list")]
        (.success [] "t") = some frame ∧ lookupField frame "id" = some (.str "abc")) ∧
    (∃ frame, finalClientFrame
        [("jsonrpc", GoVal.str "2.0"), ("id", GoVal.fnum 0), ("method", GoVal.str "tools/list")]
        (.success [] "t") = some frame ∧ lookupField frame "id" = some (.fnum 0)) ∧
    finalClientFrame
        [("jsonrpc", GoVal.str "2.0"), ("method", GoVal.str "notifications/initialized")]
        (.success [] "t") = none :=
  ⟨((idPreservation
      [("jsonrpc", GoVal.str "2.0"), ("id", GoVal.fnum 7), ("method", GoVal.str "tools/list")]
      (.success [] "t")).2.1) 7 rfl,
   ((idPreservation
      [("jsonrpc", GoVal.str "2.0"), ("id", GoVal.str "abc"), ("method", GoVal.str "tools/list")]
      (.success [] "t")).1) "abc" rfl,
   ((idPreservation
      [("jsonrpc", GoVal.str "2.0"), ("id", GoVal.fnum 0), ("method", GoVal.str "tools/list")]
      (.success [] "t")).2.1) 0 rfl,
   ((idPreservation
      [("jsonrpc", GoVal.str "2.0"), ("method", GoVal.str "notifications/initialized")]
      (.success [] "t")).2.2) rfl⟩

/-- C7: feeding the SSE buffer machine chunks accumulating more than
100 MiB (`sseBufferCap`) without a dispatchable event (no blank-line
terminator anywhere in the normalized stream) injects exactly one
BUFFER_OVERFLOW JSON-RPC error frame (code -32603), leaves the machine
in the terminal FAILED state, dispatches no events, and any further
feed injects nothing. -/
theorem sseBufferOverflow_once (cs : List (List Char))
    (hblank : hasBlank ((cs.map normalizeNl).flatten) = false)
    (hlen : sseBufferCap < ((cs.map normalizeNl).flatten).length) :
    (sseFeedAll initialSseBufState cs).2.2 = [overflowFrame] ∧
    (sseFeedAll initialSseBufState cs).1.failed = true ∧
    (sseFeedAll initialSseBufState cs).2.1 = [] ∧
    ∀ c', sseFeed (sseFeedAll initialSseBufState cs).1 c' =
      ((sseFeedAll initialSseBufState cs).1, [], []) := by
  have h := sseFeedAll_clean cs [] (by simpa using hblank) (by simp)
  rw [if_pos (by simpa using hlen)] at h
  have hinit : initialSseBufState = { buffer := [], failed := false } := rfl
  rw [hinit, h]
  refine ⟨rfl, rfl, rfl, fun c' => ?_⟩
  simp [sseFeed]

/-- A single chunk one byte over the cap, with no newline at all. -/
def overflowChunk : List Char := List.replicate (sseBufferCap + 1) 'a'

/-- Witness for C7 at a single 100 MiB + 1 chunk of `'a'`s. -/
theorem sseBufferOverflow_once_witness :
    (sseFeedAll initialSseBufState [overflowChunk]).2.2 = [overflowFrame] ∧
    (sseFeedAll initialSseBufState [overflowChunk]).1.failed = true ∧
    (sseFeedAll initialSseBufState [overflowChunk]).2.1 = [] ∧
    sseFeed (sseFeedAll initialSseBufState [overflowChunk]).1 ['b'] =
      ((sseFeedAll initialSseBufState [overflowChunk]).1, [], []) := by
  have h := sseBufferOverflow_once [overflowChunk]
    (by simp [overflowChunk, normalizeNl_replicate_a, hasBlank_replicate_a])
    (by simp [overflowChunk, normalizeNl_replicate_a])
  exact ⟨h.1, h.2.1, h.2.2.1, h.2.2.2 ['b']⟩

end McpProxy
